import Mathlib

/-!
# GoWeb: the product service of `main.go`

A shallow embedding of the handlers of `main.go` (`GetAllProducts`, `GetProduct`,
`SearchProduct`, `CreateProduct`, `validateDate`) together with the parts of the Go
standard library they call (`regexp.MatchString` on the fixed `datePattern`,
`strings.Split`, `strconv.Atoi`), followed by theorems about them.

Conventions of the embedding:

* the package-level variable `productsList` is passed in and returned explicitly;
* every call `ctx.JSON(status, payload)` is recorded, in order, in `Outcome.written`;
* a Go run-time panic (index out of range) is recorded in `Outcome.panicked`;
* Go `int` is `Int` (`strconv.Atoi` keeps its 64-bit range check), Go `string` is `String`,
  read as its list of characters;
* a `float64` is modelled by the value it denotes (`F64`), which is all that `>` looks at;
* `strconv.ParseFloat(·, 32)` is a parameter of `SearchProduct`; `ParseFloat32` models it on
  plain decimal numerals.
-/

namespace GoWeb

/-! ## Go standard library: `regexp` -/

/-- Regular expression syntax trees, restricted to the operators that occur in `datePattern`.
A character class is a list of inclusive ranges, as in Go's `syntax.Regexp`. -/
inductive Regex where
  | empty : Regex
  | bot : Regex
  | eot : Regex
  | lit (c : Char) : Regex
  | cls (ranges : List (Char × Char)) : Regex
  | seq (a b : Regex) : Regex
  | alt (a b : Regex) : Regex
deriving Repr

/-- Membership of a character in a class given as a list of inclusive ranges. -/
def inClass (ranges : List (Char × Char)) (c : Char) : Bool :=
  ranges.any (fun r => decide (r.1.toNat ≤ c.toNat) && decide (c.toNat ≤ r.2.toNat))

/-- Backtracking matcher in continuation-passing style. `atStart` tells whether the current
position is the beginning of the text, `s` is the text from the current position on, and
`k` is what remains to be matched after the expression. -/
def Regex.matchK : Regex → Bool → List Char → (Bool → List Char → Bool) → Bool
  | .empty, atStart, s, k => k atStart s
  | .bot, atStart, s, k => atStart && k atStart s
  | .eot, atStart, s, k => s.isEmpty && k atStart s
  | .lit c, _, s, k =>
    match s with
    | [] => false
    | x :: rest => (x == c) && k false rest
  | .cls ranges, _, s, k =>
    match s with
    | [] => false
    | x :: rest => inClass ranges x && k false rest
  | .seq a b, atStart, s, k => a.matchK atStart s (fun atStart1 s1 => b.matchK atStart1 s1 k)
  | .alt a b, atStart, s, k => a.matchK atStart s k || b.matchK atStart s k

/-- Bounded repetition `r{n}`. -/
def Regex.times (r : Regex) : Nat → Regex
  | 0 => .empty
  | n + 1 => .seq r (r.times n)

/-- Unanchored search: does the expression match starting at the current position or at any
later one? -/
def Regex.search (r : Regex) : Bool → List Char → Bool
  | atStart, [] => r.matchK atStart [] (fun _ _ => true)
  | atStart, c :: rest => r.matchK atStart (c :: rest) (fun _ _ => true) || r.search false rest

/-- The function `regexp.MatchString` with an already compiled pattern: reports whether the
text contains any match of the pattern. -/
def MatchString (pattern : Regex) (s : String) : Bool :=
  pattern.search true s.data

/-- The class `\d`. -/
def Regex.digit : Regex := .cls [('0', '9')]

/-- The constant `datePattern`,
`^(0[1-9]|[12][0-9]|3[01])/(0[1-9]|1[0-2])/\d{4}$`; the classes `[12]`, `[01]` and `[0-2]`
are the ranges `1`-`2`, `0`-`1` and `0`-`2`. -/
def datePattern : Regex :=
  .seq .bot
    (.seq (.alt (.seq (.lit '0') (.cls [('1', '9')]))
            (.alt (.seq (.cls [('1', '2')]) (.cls [('0', '9')]))
                  (.seq (.lit '3') (.cls [('0', '1')]))))
      (.seq (.lit '/')
        (.seq (.alt (.seq (.lit '0') (.cls [('1', '9')]))
                    (.seq (.lit '1') (.cls [('0', '2')])))
          (.seq (.lit '/')
            (.seq (Regex.digit.times 4) .eot)))))

/-! ## Go standard library: `strings.Split` and `strconv.Atoi` -/

/-- Splitting loop of `strings.Split` for a one-character separator: `cur` holds, reversed,
the characters of the piece being read. -/
def splitAux (sep : Char) : List Char → List Char → List String
  | [], cur => [String.mk cur.reverse]
  | c :: rest, cur =>
    if c = sep then String.mk cur.reverse :: splitAux sep rest []
    else splitAux sep rest (c :: cur)

/-- The function `strings.Split(s, sep)` for a one-character separator. -/
def Split (s : String) (sep : Char) : List String :=
  splitAux sep s.data []

/-- Digit loop of `strconv.Atoi`: `n = n*10 + (ch - '0')`, failing on a non-digit. -/
def atoiDigits : List Char → Nat → Option Nat
  | [], n => some n
  | ch :: rest, n =>
    if 48 ≤ ch.toNat ∧ ch.toNat ≤ 57 then atoiDigits rest (n * 10 + (ch.toNat - 48))
    else none

/-- The function `strconv.Atoi`: an optional sign, then at least one decimal digit, and a
value that fits a 64-bit `int`; `none` stands for a non-nil error. -/
def Atoi (s : String) : Option Int :=
  match s.data with
  | [] => none
  | c :: rest =>
    let neg : Bool := c == '-'
    let digits : List Char := if c = '-' ∨ c = '+' then rest else c :: rest
    if digits.isEmpty then none
    else
      match atoiDigits digits 0 with
      | none => none
      | some n =>
        let v : Int := if neg then -(n : Int) else (n : Int)
        if -(2 : Int) ^ 63 ≤ v ∧ v < (2 : Int) ^ 63 then some v else none

/-- The function `validateDate` of `main.go`. -/
def validateDate (date : String) (pattern : Regex) : Bool :=
  MatchString pattern date

/-! ## Data model of `main.go` -/

/-- The value of a Go `float64`, as far as the comparison `>` is concerned: not-a-number,
the two infinities, or a finite number (every finite `float64` denotes a rational). -/
inductive F64 where
  | nan : F64
  | negInf : F64
  | posInf : F64
  | fin (q : ℚ) : F64
deriving DecidableEq

/-- The Go comparison `a > b` on `float64`: false as soon as one side is not a number. -/
def F64.gt : F64 → F64 → Bool
  | .fin a, .fin b => decide (b < a)
  | .posInf, .fin _ => true
  | .posInf, .negInf => true
  | .fin _, .negInf => true
  | _, _ => false

/-- The struct `Product`. -/
structure Product where
  Id : Int
  Name : String
  Quantity : Int
  CodeValue : String
  IsPublished : Bool
  Expiration : String
  Price : F64
deriving DecidableEq

/-- The struct `BodyRequestCreate`. -/
structure BodyRequestCreate where
  Id : Int
  Name : String
  Quantity : Int
  CodeValue : String
  IsPublished : Bool
  Expiration : String
  Price : F64
deriving DecidableEq

/-- The second argument of a call `ctx.JSON(status, payload)`: a slice of products, one
product, `gin.H{"error": msg}`, `{"message": msg}` or `{"message": msg, "data": product}`. -/
inductive Payload where
  | products (list : List Product) : Payload
  | product (p : Product) : Payload
  | error (msg : String) : Payload
  | message (msg : String) : Payload
  | messageData (msg : String) (data : Product) : Payload
deriving DecidableEq

/-- One call `ctx.JSON(status, payload)`. -/
structure Response where
  status : Nat
  payload : Payload
deriving DecidableEq

/-- What running a handler leaves behind: the value of the package variable `productsList`,
the calls of `ctx.JSON` in the order they were made, and whether the handler panicked. -/
structure Outcome where
  productsList : List Product
  written : List Response
  panicked : Bool
deriving DecidableEq

/-! ## Handlers of `main.go` -/

/-- The handler `GetAllProducts`. -/
def GetAllProducts (productsList : List Product) : Outcome :=
  ⟨productsList, [⟨200, .products productsList⟩], false⟩

/-- The loop of `GetProduct`: the response for the first product whose id is `id`, or the
404 response when the loop runs to its end. -/
def getProductLoop (id : Int) : List Product → Response
  | [] => ⟨404, .error "product not found"⟩
  | product :: rest =>
    if product.Id = id then ⟨200, .product product⟩ else getProductLoop id rest

/-- The handler `GetProduct`, on the value of the path parameter `id`. -/
def GetProduct (productsList : List Product) (idParam : String) : Outcome :=
  match Atoi idParam with
  | none => ⟨productsList, [⟨400, .error "Invalid id"⟩], false⟩
  | some id => ⟨productsList, [getProductLoop id productsList], false⟩

/-- The loop of `SearchProduct`: `list` is the slice built so far. -/
def searchLoop (priceGt : F64) : List Product → List Product → List Product
  | [], list => list
  | product :: rest, list =>
    if product.Price.gt priceGt then searchLoop priceGt rest (list ++ [product])
    else searchLoop priceGt rest list

/-- The handler `SearchProduct`, on the value of the query parameter `priceGt`.
`parseFloat32` stands for `strconv.ParseFloat(·, 32)`, with `none` for a non-nil error. -/
def SearchProduct (parseFloat32 : String → Option F64) (productsList : List Product)
    (query : String) : Outcome :=
  match parseFloat32 query with
  | none => ⟨productsList, [⟨400, .error "Invalid price"⟩], false⟩
  | some priceGt => ⟨productsList, [⟨200, .products (searchLoop priceGt productsList [])⟩], false⟩

/-- How the date block of `CreateProduct` ends when it does not fall through to the code
check: with a response followed by `return`, or with a panic. -/
inductive DateExit where
  | respond (r : Response) : DateExit
  | panic : DateExit
deriving DecidableEq

/-- The response `ctx.JSON(http.StatusBadRequest, map[string]any{"message": msg})`. -/
def badRequest (msg : String) : Response := ⟨400, .message msg⟩

/-- The date block of `CreateProduct` (the `if validateDate(...) { ... } else { ... }`
statement): `none` when control falls through to the code check. -/
def dateBlock (expiration : String) : Option DateExit :=
  if validateDate expiration datePattern then
    let date := Split expiration '/'
    match date[0]? with
    | none => some .panic
    | some date0 =>
      let day := Atoi date0
      if day.isNone ∨ (day.getD 0 < 0 ∨ day.getD 0 > 31) then
        some (.respond (badRequest "invalid day"))
      else
        match date[1]? with
        | none => some .panic
        | some date1 =>
          let month := Atoi date1
          if month.isNone ∨ (month.getD 0 < 0 ∨ month.getD 0 > 12) then
            some (.respond (badRequest "invalid month"))
          else
            match date[2]? with
            | none => some .panic
            | some date2 =>
              let year := Atoi date2
              if year.isNone ∨ year.getD 0 < 0 then
                some (.respond (badRequest "invalid year"))
              else none
  else some (.respond (badRequest "invalid expiration date"))

/-- The loop of `CreateProduct` that looks for a product with the same code value. -/
def codeValueUsed (codeValue : String) : List Product → Bool
  | [] => false
  | prod :: rest => if codeValue = prod.CodeValue then true else codeValueUsed codeValue rest

/-- The handler `CreateProduct`, on the result of `ctx.ShouldBind(&body)`: the bound body and
`err`, true when the error returned is not nil. -/
def CreateProduct (productsList : List Product) (body : BodyRequestCreate) (err : Bool) :
    Outcome :=
  if err then
    let id : Int := (productsList.length : Int) + 1
    match dateBlock body.Expiration with
    | some (.respond r) => ⟨productsList, [r], false⟩
    | some .panic => ⟨productsList, [], true⟩
    | none =>
      if codeValueUsed body.CodeValue productsList then
        ⟨productsList, [badRequest "code value is used"], false⟩
      else
        let prod : Product :=
          { Id := id, Name := body.Name, Quantity := body.Quantity, CodeValue := body.CodeValue,
            IsPublished := body.IsPublished, Expiration := body.Expiration, Price := body.Price }
        let productsList1 := productsList ++ [prod]
        let created : Response :=
          ⟨201, .messageData "product created"
            { Id := prod.Id, Name := prod.Name, Quantity := prod.Quantity,
              CodeValue := prod.CodeValue, IsPublished := prod.IsPublished,
              Expiration := prod.Expiration, Price := prod.Price }⟩
        ⟨productsList1, [created, badRequest "invalid request body"], false⟩
  else ⟨productsList, [badRequest "invalid request body"], false⟩

/-- A request to one of the four product routes. -/
inductive Request where
  | getAll : Request
  | get (idParam : String) : Request
  | search (query : String) : Request
  | create (body : BodyRequestCreate) (err : Bool) : Request

/-- Dispatch of a request to its handler. -/
def handle (parseFloat32 : String → Option F64) (productsList : List Product) :
    Request → Outcome
  | .getAll => GetAllProducts productsList
  | .get idParam => GetProduct productsList idParam
  | .search query => SearchProduct parseFloat32 productsList query
  | .create body err => CreateProduct productsList body err

/-- The store after serving a sequence of requests one after the other. -/
def serve (parseFloat32 : String → Option F64) : List Product → List Request → List Product
  | productsList, [] => productsList
  | productsList, req :: rest =>
    serve parseFloat32 (handle parseFloat32 productsList req).productsList rest

/-! ## Go standard library: `strconv.ParseFloat` with bit size 32, on plain decimals -/

/-- The integer nearest to a non-negative rational, a tie going to the even one. -/
def roundHalfEven (q : ℚ) : Nat :=
  let n := q.floor.toNat
  let twice : ℚ := 2 * (q - n)
  if twice < 1 then n else if 1 < twice then n + 1 else if n % 2 = 0 then n else n + 1

/-- Halving loop for `ilog2`: the number of halvings that bring `n` below 2. -/
def ilog2Loop : Nat → Nat → Nat
  | 0, _ => 0
  | fuel + 1, n => if n < 2 then 0 else ilog2Loop fuel (n / 2) + 1

/-- The binary exponent of a positive natural number `n`: the `e` with `2^e ≤ n < 2^(e+1)`. -/
def ilog2 (n : Nat) : Nat := ilog2Loop n n

/-- The binary exponent of a positive rational `q`: the `e` with `2^e ≤ q < 2^(e+1)`. -/
def floorLog2 (q : ℚ) : Int :=
  if 1 ≤ q then (ilog2 q.floor.toNat : Int)
  else
    let l := ilog2 (1 / q).floor.toNat
    if q * 2 ^ l = 1 then -(l : Int) else -(l : Int) - 1

/-- The power `2^e` for an integer exponent. -/
def pow2 (e : Int) : ℚ :=
  if 0 ≤ e then 2 ^ e.toNat else 1 / 2 ^ (-e).toNat

/-- The multiple of the `float32` spacing nearest to a positive rational (ties to even):
24 significant bits above the exponent -126, the fixed spacing `2^-149` below. -/
def nearestFloat32 (q : ℚ) : ℚ :=
  let e := max (floorLog2 q) (-126)
  let ulp := pow2 (e - 23)
  (roundHalfEven (q / ulp) : ℚ) * ulp

/-- Conversion of an exact value to `float32` as `strconv.ParseFloat(s, 32)` does it: the
nearest `float32`, or `none` (the error `ErrRange`) when that is beyond the largest one. -/
def toFloat32 (q : ℚ) : Option F64 :=
  if q = 0 then some (.fin 0)
  else
    let a := nearestFloat32 |q|
    if (2 : ℚ) ^ 128 ≤ a then none else some (.fin (if q < 0 then -a else a))

/-- The number that a plain decimal numeral denotes: an optional sign, then digits with at
most one decimal point and at least one digit; `none` for any other string. -/
def plainDecimal (s : String) : Option ℚ :=
  let signed : Bool × List Char :=
    match s.data with
    | '-' :: rest => (true, rest)
    | '+' :: rest => (false, rest)
    | cs => (false, cs)
  let ip := signed.2.takeWhile (fun c => c ≠ '.')
  let fp := (signed.2.dropWhile (fun c => c ≠ '.')).drop 1
  if ip.isEmpty ∧ fp.isEmpty then none
  else
    match atoiDigits (ip ++ fp) 0 with
    | none => none
    | some n =>
      let v : ℚ := (n : ℚ) / 10 ^ fp.length
      some (if signed.1 then -v else v)

/-- The function `strconv.ParseFloat(s, 32)`, with `none` for a non-nil error, on plain
decimal numerals; `other` stands for what it does on the other strings (exponents,
hexadecimal numerals, infinities, NaN, underscores, malformed input). -/
def ParseFloat32 (other : String → Option F64) (s : String) : Option F64 :=
  match plainDecimal s with
  | some q => toFloat32 q
  | none => other s

/-! ## Notions used in the statements -/

/-- A decimal digit, as the byte test of `strconv.Atoi` and the class `[0-9]` see it. -/
def isDigit (c : Char) : Prop := 48 ≤ c.toNat ∧ c.toNat ≤ 57

/-- The day alternatives `0[1-9]`, `[12][0-9]`, `3[01]` on two characters. -/
def dayChars (d1 d2 : Char) : Prop :=
  (d1 = '0' ∧ 49 ≤ d2.toNat ∧ d2.toNat ≤ 57) ∨
  (49 ≤ d1.toNat ∧ d1.toNat ≤ 50 ∧ 48 ≤ d2.toNat ∧ d2.toNat ≤ 57) ∨
  (d1 = '3' ∧ 48 ≤ d2.toNat ∧ d2.toNat ≤ 49)

/-- The month alternatives `0[1-9]`, `1[0-2]` on two characters. -/
def monthChars (m1 m2 : Char) : Prop :=
  (m1 = '0' ∧ 49 ≤ m2.toNat ∧ m2.toNat ≤ 57) ∨
  (m1 = '1' ∧ 48 ≤ m2.toNat ∧ m2.toNat ≤ 50)

instance (c : Char) : Decidable (isDigit c) := by unfold isDigit; exact inferInstance

instance (d1 d2 : Char) : Decidable (dayChars d1 d2) := by unfold dayChars; exact inferInstance

instance (m1 m2 : Char) : Decidable (monthChars m1 m2) := by
  unfold monthChars; exact inferInstance

/-- Date well-formedness of an expiration string: it matches `datePattern` and splits on
`/` into exactly three pieces that `strconv.Atoi` reads as a day in [1,31], a month in
[1,12] and a non-negative year. -/
def wellFormedDate (expiration : String) : Bool :=
  validateDate expiration datePattern &&
    match Split expiration '/' with
    | [dd, mm, yyyy] =>
      match Atoi dd, Atoi mm, Atoi yyyy with
      | some day, some month, some year =>
        decide (1 ≤ day ∧ day ≤ 31 ∧ 1 ≤ month ∧ month ≤ 12 ∧ 0 ≤ year)
      | _, _, _ => false
    | _ => false

/-- The product that `CreateProduct` builds from the bound body and the store. -/
def newProduct (productsList : List Product) (body : BodyRequestCreate) : Product :=
  { Id := (productsList.length : Int) + 1, Name := body.Name, Quantity := body.Quantity,
    CodeValue := body.CodeValue, IsPublished := body.IsPublished,
    Expiration := body.Expiration, Price := body.Price }

/-- Sequential numbering of a store: the product at position `i`, counting from 1, has
id `i` (the product at index `i`, counting from 0, has id `i + 1`). -/
def sequentialIds (l : List Product) : Prop :=
  ∀ (i : Nat) (h : i < l.length), (l.get ⟨i, h⟩).Id = (i : Int) + 1

instance (l : List Product) : Decidable (sequentialIds l) := by
  unfold sequentialIds; exact inferInstance

/-- The number written by two decimal digits. -/
def numeral2 (a b : Char) : Nat := (a.toNat - 48) * 10 + (b.toNat - 48)

/-- The date grammar in the words of the specification: exactly ten characters of the form
`DD/MM/YYYY`, where the characters at positions 2 and 5 are `/`, DD is a two-digit numeral
from 01 to 31, MM a two-digit numeral from 01 to 12, and YYYY four ASCII digits. -/
def specDate (s : String) : Bool :=
  match s.data with
  | [d1, d2, s1, m1, m2, s2, y1, y2, y3, y4] =>
    decide (s1 = '/' ∧ s2 = '/' ∧
      (isDigit d1 ∧ isDigit d2 ∧ 1 ≤ numeral2 d1 d2 ∧ numeral2 d1 d2 ≤ 31) ∧
      (isDigit m1 ∧ isDigit m2 ∧ 1 ≤ numeral2 m1 m2 ∧ numeral2 m1 m2 ≤ 12) ∧
      isDigit y1 ∧ isDigit y2 ∧ isDigit y3 ∧ isDigit y4)
  | _ => false

/-! ## Sample data -/

/-- A stored product with id 1 and code value `A1`. -/
def sampleProduct : Product := ⟨1, "mouse", 3, "A1", true, "01/01/2024", .fin 10⟩

/-- A create body with a well-formed expiration and the code value `B2`. -/
def sampleBody : BodyRequestCreate := ⟨7, "desk", 4, "B2", false, "31/12/2025", .fin 99⟩

/-- A create body with a well-formed expiration and the code value of `sampleProduct`. -/
def sampleBodyUsed : BodyRequestCreate := ⟨0, "pad", 1, "A1", false, "15/06/2030", .fin 5⟩

/-- A stored product with id 2, alone in its store. -/
def sampleProductTwo : Product := ⟨2, "lamp", 1, "C3", true, "10/10/2026", .fin 20⟩

/-- A product with the given id and price; its code value is `P` followed by the id. -/
def priced (id : Nat) (price : ℚ) : Product :=
  ⟨id, "item", 1, "P" ++ toString id, true, "01/01/2030", .fin price⟩

/-- A store with the prices 5, 10, 15, 20. -/
def pricedStore : List Product := [priced 1 5, priced 2 10, priced 3 15, priced 4 20]

/-- A stand-in for `strconv.ParseFloat(·, 32)` that reads the query `10` and nothing else. -/
def parseTen (query : String) : Option F64 :=
  if query = "10" then some (.fin 10) else none

/-- A create body whose expiration does not match the date pattern and whose code value is
the code value of `sampleProduct`. -/
def sampleBodyBadDate : BodyRequestCreate := ⟨0, "pad", 1, "A1", false, "2030-06-15", .fin 5⟩

/-! ## Lemmas on the date pattern, `strings.Split` and `strconv.Atoi` -/

/-- The pattern starts with `^`: it matches at no position after the beginning of the text. -/
theorem search_datePattern_false (s : List Char) : datePattern.search false s = false := by
  induction s with
  | nil => simp [Regex.search, datePattern, Regex.matchK]
  | cons c rest ih => simp [Regex.search, ih]; simp [datePattern, Regex.matchK]

/-- Searching for the pattern is matching it at the beginning of the text. -/
theorem search_datePattern_true (l : List Char) :
    datePattern.search true l = datePattern.matchK true l (fun _ _ => true) := by
  cases l with
  | nil => simp [Regex.search]
  | cons c rest => simp [Regex.search, search_datePattern_false]

/-- The strings that `validateDate` accepts for `datePattern`: ten characters, two for the
day, `/`, two for the month, `/`, four digits. -/
theorem validateDate_iff (s : String) :
    validateDate s datePattern = true ↔
    ∃ d1 d2 m1 m2 y1 y2 y3 y4 : Char,
      s.data = [d1, d2, '/', m1, m2, '/', y1, y2, y3, y4] ∧
      dayChars d1 d2 ∧ monthChars m1 m2 ∧
      isDigit y1 ∧ isDigit y2 ∧ isDigit y3 ∧ isDigit y4 := by
  unfold validateDate MatchString
  rcases s with ⟨l⟩
  simp only [search_datePattern_true, dayChars, monthChars, isDigit]
  constructor
  · intro h0
    rcases l with _ | ⟨a0, _ | ⟨a1, _ | ⟨a2, _ | ⟨a3, _ | ⟨a4, _ | ⟨a5, _ | ⟨a6, _ | ⟨a7,
      _ | ⟨a8, _ | ⟨a9, _ | ⟨a10, l⟩⟩⟩⟩⟩⟩⟩⟩⟩⟩⟩ <;>
      simp [datePattern, Regex.matchK, Regex.times, Regex.digit, inClass] at h0
    refine ⟨a0, a1, a3, a4, a6, a7, a8, a9, ?_⟩
    simp only [List.cons.injEq, true_and, and_true]
    tauto
  · rintro ⟨d1, d2, m1, m2, y1, y2, y3, y4, rfl, hd, hm, ⟨h1, h1'⟩, ⟨h2, h2'⟩, ⟨h3, h3'⟩,
      ⟨h4, h4'⟩⟩
    rcases hd with ⟨rfl, a, b⟩ | ⟨a, b, c, d⟩ | ⟨rfl, a, b⟩ <;>
      rcases hm with ⟨rfl, e, f⟩ | ⟨rfl, e, f⟩ <;>
      simp [datePattern, Regex.matchK, Regex.times, Regex.digit, inClass, *]

/-- A digit is not a sign. -/
theorem digit_not_sign (c : Char) (h : 48 ≤ c.toNat) : ¬ (c = '-' ∨ c = '+') := by
  rintro (rfl | rfl) <;> simp at h

/-- A digit is not the separator. -/
theorem digit_ne_slash (c : Char) (h : 48 ≤ c.toNat) : c ≠ '/' := by
  rintro rfl; simp at h

/-- The value `strconv.Atoi` reads from two digits. -/
theorem Atoi_two (a b : Char) (ha : isDigit a) (hb : isDigit b) :
    Atoi (String.mk [a, b]) = some (((a.toNat - 48) * 10 + (b.toNat - 48) : Nat) : Int) := by
  obtain ⟨ha1, ha2⟩ := ha
  obtain ⟨hb1, hb2⟩ := hb
  have hs := digit_not_sign a ha1
  have hm : (a == '-') = false := by simpa using fun h => hs (Or.inl h)
  simp only [Atoi, hs, hm, if_false, List.isEmpty_cons, atoiDigits, ha1, ha2, hb1, hb2,
    and_self, if_true]
  simp
  constructor <;> omega

/-- The value `strconv.Atoi` reads from four digits. -/
theorem Atoi_four (a b c d : Char) (ha : isDigit a) (hb : isDigit b) (hc : isDigit c)
    (hd : isDigit d) :
    Atoi (String.mk [a, b, c, d]) =
      some (((((a.toNat - 48) * 10 + (b.toNat - 48)) * 10 + (c.toNat - 48)) * 10
        + (d.toNat - 48) : Nat) : Int) := by
  obtain ⟨ha1, ha2⟩ := ha
  obtain ⟨hb1, hb2⟩ := hb
  obtain ⟨hc1, hc2⟩ := hc
  obtain ⟨hd1, hd2⟩ := hd
  have hs := digit_not_sign a ha1
  have hm : (a == '-') = false := by simpa using fun h => hs (Or.inl h)
  simp only [Atoi, hs, hm, if_false, List.isEmpty_cons, atoiDigits, ha1, ha2, hb1, hb2,
    hc1, hc2, hd1, hd2, and_self, if_true]
  simp
  constructor <;> omega

/-- Splitting a date of the accepted shape on `/` gives its three pieces. -/
theorem Split_date (d1 d2 m1 m2 y1 y2 y3 y4 : Char)
    (hd1 : 48 ≤ d1.toNat) (hd2 : 48 ≤ d2.toNat) (hm1 : 48 ≤ m1.toNat) (hm2 : 48 ≤ m2.toNat)
    (h1 : 48 ≤ y1.toNat) (h2 : 48 ≤ y2.toNat) (h3 : 48 ≤ y3.toNat) (h4 : 48 ≤ y4.toNat) :
    Split (String.mk [d1, d2, '/', m1, m2, '/', y1, y2, y3, y4]) '/' =
      [String.mk [d1, d2], String.mk [m1, m2], String.mk [y1, y2, y3, y4]] := by
  simp [Split, splitAux, digit_ne_slash, hd1, hd2, hm1, hm2, h1, h2, h3, h4]

/-- An accepted date splits into three pieces that parse as a day in [1,31], a month in
[1,12] and a year in [0,9999]. -/
theorem validateDate_components (s : String) (h : validateDate s datePattern = true) :
    ∃ dd mm yyyy : String, ∃ day month year : Int,
      Split s '/' = [dd, mm, yyyy] ∧ Atoi dd = some day ∧ Atoi mm = some month ∧
      Atoi yyyy = some year ∧ 1 ≤ day ∧ day ≤ 31 ∧ 1 ≤ month ∧ month ≤ 12 ∧
      0 ≤ year ∧ year ≤ 9999 := by
  obtain ⟨d1, d2, m1, m2, y1, y2, y3, y4, hs, hd, hm, h1, h2, h3, h4⟩ :=
    (validateDate_iff s).1 h
  have hs2 : s = String.mk [d1, d2, '/', m1, m2, '/', y1, y2, y3, y4] := by
    cases s; simp only at hs; rw [hs]
  have hd1 : isDigit d1 ∧ isDigit d2 ∧
      1 ≤ (d1.toNat - 48) * 10 + (d2.toNat - 48) ∧
      (d1.toNat - 48) * 10 + (d2.toNat - 48) ≤ 31 := by
    unfold isDigit
    rcases hd with ⟨rfl, a, b⟩ | ⟨a, b, c, d⟩ | ⟨rfl, a, b⟩ <;> (try simp) <;> omega
  have hm1 : isDigit m1 ∧ isDigit m2 ∧
      1 ≤ (m1.toNat - 48) * 10 + (m2.toNat - 48) ∧
      (m1.toNat - 48) * 10 + (m2.toNat - 48) ≤ 12 := by
    unfold isDigit
    rcases hm with ⟨rfl, a, b⟩ | ⟨rfl, a, b⟩ <;> (try simp) <;> omega
  obtain ⟨hda, hdb, hdlo, hdhi⟩ := hd1
  obtain ⟨hma, hmb, hmlo, hmhi⟩ := hm1
  refine ⟨String.mk [d1, d2], String.mk [m1, m2], String.mk [y1, y2, y3, y4], _, _, _, ?_,
    Atoi_two d1 d2 hda hdb, Atoi_two m1 m2 hma hmb, Atoi_four y1 y2 y3 y4 h1 h2 h3 h4, ?_⟩
  · rw [hs2]
    exact Split_date d1 d2 m1 m2 y1 y2 y3 y4 hda.1 hdb.1 hma.1 hmb.1 h1.1 h2.1 h3.1 h4.1
  · unfold isDigit at h1 h2 h3 h4
    refine ⟨?_, ?_, ?_, ?_, ?_, ?_⟩ <;> omega

/-- An accepted date is well formed. -/
theorem validateDate_wellFormed (s : String) (h : validateDate s datePattern = true) :
    wellFormedDate s = true := by
  obtain ⟨dd, mm, yyyy, day, month, year, hsp, hd, hm, hy, h1, h2, h3, h4, h5, _⟩ :=
    validateDate_components s h
  simp [wellFormedDate, h, hsp, hd, hm, hy, h1, h2, h3, h4, h5]

/-- On an accepted date the date block falls through to the code check. -/
theorem dateBlock_of_valid (s : String) (h : validateDate s datePattern = true) :
    dateBlock s = none := by
  obtain ⟨dd, mm, yyyy, day, month, year, hsp, hd, hm, hy, h1, h2, h3, h4, h5, _⟩ :=
    validateDate_components s h
  have e1 : ¬ day < 0 := by omega
  have e2 : ¬ month < 0 := by omega
  have e3 : ¬ year < 0 := by omega
  have e4 : ¬ 31 < day := by omega
  have e5 : ¬ 12 < month := by omega
  simp [dateBlock, h, hsp, hd, hm, hy, e1, e2, e3, e4, e5]

/-- On a rejected date the date block answers "invalid expiration date". -/
theorem dateBlock_of_invalid (s : String) (h : validateDate s datePattern = false) :
    dateBlock s = some (.respond (badRequest "invalid expiration date")) := by
  simp [dateBlock, h]

/-- The code loop finds a product exactly when one has the code value. -/
theorem codeValueUsed_iff (codeValue : String) (l : List Product) :
    codeValueUsed codeValue l = true ↔ ∃ p ∈ l, p.CodeValue = codeValue := by
  induction l with
  | nil => simp [codeValueUsed]
  | cons p rest ih =>
    by_cases hp : codeValue = p.CodeValue
    · simp [codeValueUsed, hp]
    · have hp2 : ¬ p.CodeValue = codeValue := fun e => hp e.symm
      simp [codeValueUsed, hp, hp2, ih]

/-- The four ways `CreateProduct` can end. -/
theorem CreateProduct_cases (productsList : List Product) (body : BodyRequestCreate)
    (err : Bool) :
    (err = false ∧ CreateProduct productsList body err =
        ⟨productsList, [badRequest "invalid request body"], false⟩) ∨
    (err = true ∧ validateDate body.Expiration datePattern = false ∧
      CreateProduct productsList body err =
        ⟨productsList, [badRequest "invalid expiration date"], false⟩) ∨
    (err = true ∧ validateDate body.Expiration datePattern = true ∧
      codeValueUsed body.CodeValue productsList = true ∧
      CreateProduct productsList body err =
        ⟨productsList, [badRequest "code value is used"], false⟩) ∨
    (err = true ∧ validateDate body.Expiration datePattern = true ∧
      codeValueUsed body.CodeValue productsList = false ∧
      CreateProduct productsList body err =
        ⟨productsList ++ [newProduct productsList body],
          [⟨201, .messageData "product created" (newProduct productsList body)⟩,
            badRequest "invalid request body"], false⟩) := by
  cases err with
  | false => left; simp [CreateProduct]
  | true =>
    right
    cases hv : validateDate body.Expiration datePattern with
    | false => left; simp [CreateProduct, dateBlock_of_invalid _ hv]
    | true =>
      right
      cases hc : codeValueUsed body.CodeValue productsList with
      | true => left; simp [CreateProduct, dateBlock_of_valid _ hv, hc]
      | false => right; simp [CreateProduct, dateBlock_of_valid _ hv, hc, newProduct]

/-- Either a handler leaves the store as it was, or it is `CreateProduct` on a body whose
expiration matches the date pattern and whose code value is unused, and the store gains the
new product at its end. -/
theorem handle_productsList (parseFloat32 : String → Option F64) (productsList : List Product)
    (req : Request) :
    (handle parseFloat32 productsList req).productsList = productsList ∨
    ∃ body : BodyRequestCreate,
      validateDate body.Expiration datePattern = true ∧
      codeValueUsed body.CodeValue productsList = false ∧
      (handle parseFloat32 productsList req).productsList =
        productsList ++ [newProduct productsList body] := by
  cases req with
  | getAll => left; rfl
  | get idParam => left; simp only [handle, GetProduct]; cases Atoi idParam <;> rfl
  | search query =>
    left; simp only [handle, SearchProduct]; cases parseFloat32 query <;> rfl
  | create body err =>
    rcases CreateProduct_cases productsList body err with
      ⟨_, hr⟩ | ⟨_, _, hr⟩ | ⟨_, _, _, hr⟩ | ⟨_, hv, hu, hr⟩
    · left; simp [handle, hr]
    · left; simp [handle, hr]
    · left; simp [handle, hr]
    · right; exact ⟨body, hv, hu, by simp [handle, hr]⟩

/-- A property of the store that every successful insertion preserves holds after any
sequence of requests. -/
theorem serve_invariant (parseFloat32 : String → Option F64) (P : List Product → Prop)
    (hstep : ∀ (productsList : List Product) (body : BodyRequestCreate), P productsList →
      validateDate body.Expiration datePattern = true →
      codeValueUsed body.CodeValue productsList = false →
      P (productsList ++ [newProduct productsList body]))
    (reqs : List Request) :
    ∀ productsList : List Product, P productsList → P (serve parseFloat32 productsList reqs) := by
  induction reqs with
  | nil => intro productsList h; simpa [serve] using h
  | cons req rest ih =>
    intro productsList h
    rw [serve]
    apply ih
    rcases handle_productsList parseFloat32 productsList req with he | ⟨body, hv, hu, he⟩
    · rw [he]; exact h
    · rw [he]; exact hstep productsList body h hv hu

/-- The loop of `GetProduct` answers 404 when no product has the id. -/
theorem getProductLoop_none (id : Int) (l : List Product) (h : ∀ p ∈ l, p.Id ≠ id) :
    getProductLoop id l = ⟨404, .error "product not found"⟩ := by
  induction l with
  | nil => rfl
  | cons p rest ih =>
    have hp : p.Id ≠ id := h p (List.mem_cons_self _ _)
    simp only [getProductLoop, hp, if_false]
    exact ih (fun q hq => h q (List.mem_cons_of_mem _ hq))

/-- The loop of `GetProduct` answers with the first product that has the id. -/
theorem getProductLoop_first (id : Int) (pre post : List Product) (p : Product)
    (hpre : ∀ q ∈ pre, q.Id ≠ id) (hp : p.Id = id) :
    getProductLoop id (pre ++ p :: post) = ⟨200, .product p⟩ := by
  induction pre with
  | nil => simp [getProductLoop, hp]
  | cons q rest ih =>
    have hq : q.Id ≠ id := hpre q (List.mem_cons_self _ _)
    simp only [List.cons_append, getProductLoop, hq, if_false]
    exact ih (fun r hr => hpre r (List.mem_cons_of_mem _ hr))

/-- A list with a product of the given id splits at the first such product. -/
theorem exists_first (id : Int) (l : List Product) (h : ∃ p ∈ l, p.Id = id) :
    ∃ pre p post, l = pre ++ p :: post ∧ (∀ q ∈ pre, q.Id ≠ id) ∧ p.Id = id := by
  induction l with
  | nil => simp at h
  | cons a rest ih =>
    by_cases ha : a.Id = id
    · exact ⟨[], a, rest, rfl, by simp, ha⟩
    · have h2 : ∃ p ∈ rest, p.Id = id := by
        obtain ⟨p, hp, e⟩ := h
        rcases List.mem_cons.1 hp with rfl | hm
        · exact absurd e ha
        · exact ⟨p, hm, e⟩
      obtain ⟨pre, p, post, e, hpre, hp⟩ := ih h2
      refine ⟨a :: pre, p, post, by simp [e], ?_, hp⟩
      intro q hq
      rcases List.mem_cons.1 hq with rfl | hm
      · exact ha
      · exact hpre q hm

/-- The loop of `SearchProduct` appends to `list` the products priced above the threshold,
in order. -/
theorem searchLoop_eq (priceGt : F64) (l list : List Product) :
    searchLoop priceGt l list = list ++ l.filter (fun p => p.Price.gt priceGt) := by
  induction l generalizing list with
  | nil => simp [searchLoop]
  | cons p rest ih =>
    by_cases hp : p.Price.gt priceGt = true
    · simp [searchLoop, hp, ih]
    · simp [searchLoop, hp, ih]

/-! ## Lemmas on the store and on the date grammar of the specification -/

/-- After any sequence of requests the old store is the beginning of the new one. -/
theorem serve_prefix (parseFloat32 : String → Option F64) (reqs : List Request) :
    ∀ productsList : List Product,
      productsList <+: serve parseFloat32 productsList reqs := by
  induction reqs with
  | nil => intro productsList; simp [serve]
  | cons req rest ih =>
    intro productsList
    rw [serve]
    rcases handle_productsList parseFloat32 productsList req with he | ⟨body, _, _, he⟩
    · rw [he]; exact ih productsList
    · rw [he]
      exact (List.prefix_append productsList _).trans (ih _)

/-- Sequential numbering says that the list of ids is 1, 2, ..., `len(store)`. -/
theorem sequentialIds_iff (l : List Product) :
    sequentialIds l ↔
      l.map Product.Id = (List.range l.length).map (fun i : Nat => (i : Int) + 1) := by
  unfold sequentialIds
  constructor
  · intro hall
    apply List.ext_getElem
    · simp
    · intro i h1 h2
      simp only [List.length_map] at h1
      simpa using hall i h1
  · intro e i h
    have h1 := congrArg (fun m => m[i]?) e
    simp only [List.getElem?_map, List.getElem?_range h, List.getElem?_eq_getElem h,
      Option.map_some'] at h1
    simpa using h1

/-- Sequential numbering survives the insertion made by `CreateProduct`. -/
theorem sequentialIds_append (l : List Product) (body : BodyRequestCreate)
    (h : sequentialIds l) : sequentialIds (l ++ [newProduct l body]) := by
  rw [sequentialIds_iff] at h ⊢
  simp [List.range_succ, h, newProduct]

/-- In a sequentially numbered store the ids are pairwise distinct. -/
theorem sequentialIds_nodup (l : List Product) (h : sequentialIds l) :
    (l.map Product.Id).Nodup := by
  rw [sequentialIds_iff] at h
  rw [h]
  refine List.Nodup.map ?_ (List.nodup_range _)
  intro a b hab
  simpa using hab

/-- In a sequentially numbered store no product has the id `len(store) + 1`. -/
theorem sequentialIds_fresh (l : List Product) (h : sequentialIds l) :
    ∀ p ∈ l, p.Id ≠ (l.length : Int) + 1 := by
  intro p hp e
  have hm : p.Id ∈ l.map Product.Id := List.mem_map.2 ⟨p, hp, rfl⟩
  rw [sequentialIds_iff] at h
  rw [h] at hm
  obtain ⟨i, hi, hie⟩ := List.mem_map.1 hm
  have hlt := List.mem_range.1 hi
  rw [e] at hie
  omega

/-- A character is determined by its code point. -/
theorem char_of_toNat (c : Char) (n : Nat) (h : c.toNat = n) : c = Char.ofNat n := by
  rw [← h, Char.ofNat_toNat]

/-- The day alternatives of the pattern are the two-digit numerals from 01 to 31. -/
theorem dayChars_iff (d1 d2 : Char) :
    dayChars d1 d2 ↔
      isDigit d1 ∧ isDigit d2 ∧ 1 ≤ numeral2 d1 d2 ∧ numeral2 d1 d2 ≤ 31 := by
  unfold dayChars isDigit numeral2
  constructor
  · rintro (⟨rfl, a, b⟩ | ⟨a, b, c, d⟩ | ⟨rfl, a, b⟩) <;> (try simp) <;> omega
  · rintro ⟨⟨a1, a2⟩, ⟨b1, b2⟩, lo, hi⟩
    rcases (by omega : d1.toNat = 48 ∨ (49 ≤ d1.toNat ∧ d1.toNat ≤ 50) ∨ d1.toNat = 51)
      with e | e | e
    · left; exact ⟨char_of_toNat d1 48 e, by omega, by omega⟩
    · right; left; exact ⟨e.1, e.2, b1, b2⟩
    · right; right; exact ⟨char_of_toNat d1 51 e, by omega, by omega⟩

/-- The month alternatives of the pattern are the two-digit numerals from 01 to 12. -/
theorem monthChars_iff (m1 m2 : Char) :
    monthChars m1 m2 ↔
      isDigit m1 ∧ isDigit m2 ∧ 1 ≤ numeral2 m1 m2 ∧ numeral2 m1 m2 ≤ 12 := by
  unfold monthChars isDigit numeral2
  constructor
  · rintro (⟨rfl, a, b⟩ | ⟨rfl, a, b⟩) <;> (try simp) <;> omega
  · rintro ⟨⟨a1, a2⟩, ⟨b1, b2⟩, lo, hi⟩
    rcases (by omega : m1.toNat = 48 ∨ m1.toNat = 49) with e | e
    · left; exact ⟨char_of_toNat m1 48 e, by omega, by omega⟩
    · right; exact ⟨char_of_toNat m1 49 e, by omega, by omega⟩

/-- The strings of the date grammar of the specification, spelled out. -/
theorem specDate_iff (s : String) :
    specDate s = true ↔
    ∃ d1 d2 m1 m2 y1 y2 y3 y4 : Char,
      s.data = [d1, d2, '/', m1, m2, '/', y1, y2, y3, y4] ∧
      dayChars d1 d2 ∧ monthChars m1 m2 ∧
      isDigit y1 ∧ isDigit y2 ∧ isDigit y3 ∧ isDigit y4 := by
  rcases s with ⟨l⟩
  simp only [dayChars_iff, monthChars_iff]
  constructor
  · intro h
    rcases l with _ | ⟨a0, _ | ⟨a1, _ | ⟨a2, _ | ⟨a3, _ | ⟨a4, _ | ⟨a5, _ | ⟨a6, _ | ⟨a7,
      _ | ⟨a8, _ | ⟨a9, _ | ⟨a10, l⟩⟩⟩⟩⟩⟩⟩⟩⟩⟩⟩ <;>
      simp only [specDate, decide_eq_true_eq, Bool.false_eq_true] at h
    obtain ⟨rfl, rfl, hd, hm, hy⟩ := h
    exact ⟨a0, a1, a3, a4, a6, a7, a8, a9, rfl, hd, hm, hy⟩
  · rintro ⟨d1, d2, m1, m2, y1, y2, y3, y4, hl, hd, hm, hy⟩
    have hl2 : l = [d1, d2, '/', m1, m2, '/', y1, y2, y3, y4] := hl
    subst hl2
    simp only [specDate, decide_eq_true_eq]
    exact ⟨trivial, trivial, hd, hm, hy⟩

/-! ## Claims -/

/-- C1: a create request whose code value is the code value of a product already in the
store is rejected, whether or not the body bound without error: the store is unchanged and
no response with status 201 is written; when the validation block is reached (binding
returned an error) with an expiration that matches the date pattern, the response written
is 400 with message "code value is used". -/
theorem CreateProduct_rejects_used_code (productsList : List Product)
    (body : BodyRequestCreate) (err : Bool)
    (h : ∃ p ∈ productsList, p.CodeValue = body.CodeValue) :
    (CreateProduct productsList body err).productsList = productsList ∧
    (∀ r ∈ (CreateProduct productsList body err).written, r.status ≠ 201) ∧
    (err = true → validateDate body.Expiration datePattern = true →
      (CreateProduct productsList body err).written =
        [⟨400, .message "code value is used"⟩]) := by
  have hc := (codeValueUsed_iff _ _).2 h
  rcases CreateProduct_cases productsList body err with
    ⟨he, hr⟩ | ⟨he, hv, hr⟩ | ⟨he, hv, hu, hr⟩ | ⟨he, hv, hu, hr⟩
  · rw [hr]; simp [he, badRequest]
  · rw [hr]; simp [hv, badRequest]
  · rw [hr]; simp [badRequest]
  · rw [hc] at hu; exact absurd hu (by simp)

/-- Witness of C1: the code value `A1` of `sampleProduct` is refused. -/
theorem CreateProduct_rejects_used_code_witness :
    (∃ p ∈ [sampleProduct], p.CodeValue = sampleBodyUsed.CodeValue) ∧
    (CreateProduct [sampleProduct] sampleBodyUsed true).productsList = [sampleProduct] ∧
    (CreateProduct [sampleProduct] sampleBodyUsed true).written =
      [⟨400, .message "code value is used"⟩] :=
  ⟨⟨sampleProduct, by decide, by decide⟩,
    (CreateProduct_rejects_used_code [sampleProduct] sampleBodyUsed true
      ⟨sampleProduct, by decide, by decide⟩).1,
    (CreateProduct_rejects_used_code [sampleProduct] sampleBodyUsed true
      ⟨sampleProduct, by decide, by decide⟩).2.2 rfl (by decide)⟩

/-- C2: whenever `CreateProduct` changes the store, the new store is the old one followed by
one product whose id is the length of the old store plus one, whatever id the body carried,
and whose other fields are those of the bound body; on a store of one product the id is 2. -/
theorem CreateProduct_appended_product (productsList : List Product)
    (body : BodyRequestCreate) (err : Bool)
    (h : (CreateProduct productsList body err).productsList ≠ productsList) :
    ∃ prod : Product,
      (CreateProduct productsList body err).productsList = productsList ++ [prod] ∧
      prod.Id = (productsList.length : Int) + 1 ∧
      prod.Name = body.Name ∧ prod.Quantity = body.Quantity ∧
      prod.CodeValue = body.CodeValue ∧ prod.IsPublished = body.IsPublished ∧
      prod.Expiration = body.Expiration ∧ prod.Price = body.Price ∧
      (productsList.length = 1 → prod.Id = 2) := by
  rcases CreateProduct_cases productsList body err with
    ⟨he, hr⟩ | ⟨he, hv, hr⟩ | ⟨he, hv, hu, hr⟩ | ⟨he, hv, hu, hr⟩
  · exact absurd (by rw [hr]) h
  · exact absurd (by rw [hr]) h
  · exact absurd (by rw [hr]) h
  · refine ⟨newProduct productsList body, by rw [hr], rfl, rfl, rfl, rfl, rfl, rfl, rfl, ?_⟩
    intro hl
    simp [newProduct, hl]

/-- Witness of C2: on the store holding `sampleProduct` alone, `sampleBody` (sent with
id 7) is stored with id 2. -/
theorem CreateProduct_appended_product_witness :
    (CreateProduct [sampleProduct] sampleBody true).productsList ≠ [sampleProduct] ∧
    ∃ prod : Product,
      (CreateProduct [sampleProduct] sampleBody true).productsList = [sampleProduct] ++ [prod] ∧
      prod.Id = (([sampleProduct] : List Product).length : Int) + 1 ∧
      prod.Name = sampleBody.Name ∧ prod.Quantity = sampleBody.Quantity ∧
      prod.CodeValue = sampleBody.CodeValue ∧ prod.IsPublished = sampleBody.IsPublished ∧
      prod.Expiration = sampleBody.Expiration ∧ prod.Price = sampleBody.Price ∧
      (([sampleProduct] : List Product).length = 1 → prod.Id = 2) :=
  ⟨by decide, CreateProduct_appended_product [sampleProduct] sampleBody true (by decide)⟩

/-- C3: when the body binds without error, `CreateProduct` leaves the store unchanged and
writes the single response 400 "invalid request body" (no validation response, no panic);
any other outcome of `CreateProduct` (a validation response, an insertion) occurs only when
binding returned an error. -/
theorem CreateProduct_bound_without_error (productsList : List Product)
    (body : BodyRequestCreate) :
    CreateProduct productsList body false =
      ⟨productsList, [⟨400, .message "invalid request body"⟩], false⟩ ∧
    ∀ err : Bool,
      CreateProduct productsList body err ≠
        ⟨productsList, [⟨400, .message "invalid request body"⟩], false⟩ → err = true := by
  have h0 : CreateProduct productsList body false =
      ⟨productsList, [⟨400, .message "invalid request body"⟩], false⟩ := by
    simp [CreateProduct, badRequest]
  refine ⟨h0, ?_⟩
  intro err hne
  cases err with
  | false => exact absurd h0 hne
  | true => rfl

/-- Witness of C3: `sampleBody` bound without error is answered 400 "invalid request body";
sent with a binding error it has another outcome. -/
theorem CreateProduct_bound_without_error_witness :
    CreateProduct [sampleProduct] sampleBody false =
      ⟨[sampleProduct], [⟨400, .message "invalid request body"⟩], false⟩ ∧
    CreateProduct [sampleProduct] sampleBody true ≠
      ⟨[sampleProduct], [⟨400, .message "invalid request body"⟩], false⟩ :=
  ⟨(CreateProduct_bound_without_error [sampleProduct] sampleBody).1, by decide⟩

/-- C4 (the code at the failing input): `sampleBody` binds without error, its expiration
matches the date pattern and its code value is not used in the store, yet `CreateProduct`
answers 400 "invalid request body" and stores nothing. -/
theorem CreateProduct_bound_body_not_created :
    validateDate sampleBody.Expiration datePattern = true ∧
    codeValueUsed sampleBody.CodeValue [sampleProduct] = false ∧
    CreateProduct [sampleProduct] sampleBody false =
      ⟨[sampleProduct], [⟨400, .message "invalid request body"⟩], false⟩ := by
  decide

/-- C5 (the code at the failing input): on the path that inserts, `CreateProduct` calls
`ctx.JSON` twice, first with 201 "product created" and then with 400 "invalid request
body". -/
theorem CreateProduct_insert_writes_twice :
    (CreateProduct [sampleProduct] sampleBody true).productsList =
      [sampleProduct, ⟨2, "desk", 4, "B2", false, "31/12/2025", .fin 99⟩] ∧
    (CreateProduct [sampleProduct] sampleBody true).written =
      [⟨201, .messageData "product created" ⟨2, "desk", 4, "B2", false, "31/12/2025", .fin 99⟩⟩,
        ⟨400, .message "invalid request body"⟩] := by
  decide

/-- C6: when the id parameter parses as the integer `n`, `GetProduct` leaves the store
unchanged; it writes the single response 404 "product not found" when no product of the
store has id `n`, and otherwise the single response 200 with the first product, in store
order, whose id is `n`. -/
theorem GetProduct_by_id (productsList : List Product) (idParam : String) (n : Int)
    (h : Atoi idParam = some n) :
    (GetProduct productsList idParam).productsList = productsList ∧
    (GetProduct productsList idParam).panicked = false ∧
    ((∀ p ∈ productsList, p.Id ≠ n) →
      (GetProduct productsList idParam).written = [⟨404, .error "product not found"⟩]) ∧
    ((∃ p ∈ productsList, p.Id = n) →
      ∃ pre p post, productsList = pre ++ p :: post ∧ (∀ q ∈ pre, q.Id ≠ n) ∧ p.Id = n ∧
        (GetProduct productsList idParam).written = [⟨200, .product p⟩]) := by
  refine ⟨by simp [GetProduct, h], by simp [GetProduct, h], ?_, ?_⟩
  · intro hno
    simp [GetProduct, h, getProductLoop_none n productsList hno]
  · intro hex
    obtain ⟨pre, p, post, e, hpre, hp⟩ := exists_first n productsList hex
    refine ⟨pre, p, post, e, hpre, hp, ?_⟩
    have hl : getProductLoop n productsList = ⟨200, .product p⟩ := by
      rw [e]; exact getProductLoop_first n pre post p hpre hp
    simp [GetProduct, h, hl]

/-- Witness of C6: in the priced store, id `3` finds the third product and id `9` none. -/
theorem GetProduct_by_id_witness :
    Atoi "3" = some 3 ∧ Atoi "9" = some 9 ∧
    (GetProduct pricedStore "3").productsList = pricedStore ∧
    (GetProduct pricedStore "3").written = [⟨200, .product (priced 3 15)⟩] ∧
    (GetProduct pricedStore "9").written = [⟨404, .error "product not found"⟩] :=
  ⟨by decide, by decide, (GetProduct_by_id pricedStore "3" 3 (by decide)).1, by decide,
    (GetProduct_by_id pricedStore "9" 9 (by decide)).2.2.1 (by decide)⟩

/-- C7: when the `priceGt` query parses to the threshold `t`, `SearchProduct` leaves the
store unchanged and writes the single response 200 with exactly the products of the store
whose price is greater than `t`, in store order. -/
theorem SearchProduct_filters (parseFloat32 : String → Option F64)
    (productsList : List Product) (query : String) (t : F64)
    (h : parseFloat32 query = some t) :
    SearchProduct parseFloat32 productsList query =
      ⟨productsList,
        [⟨200, .products (productsList.filter (fun p => p.Price.gt t))⟩], false⟩ := by
  simp [SearchProduct, h, searchLoop_eq]

/-- Witness of C7: for the prices 5, 10, 15, 20 and `priceGt=10` the answer is the products
priced 15 and 20. -/
theorem SearchProduct_filters_witness :
    parseTen "10" = some (.fin 10) ∧
    pricedStore.filter (fun p => p.Price.gt (.fin 10)) = [priced 3 15, priced 4 20] ∧
    SearchProduct parseTen pricedStore "10" =
      ⟨pricedStore,
        [⟨200, .products (pricedStore.filter (fun p => p.Price.gt (.fin 10)))⟩], false⟩ :=
  ⟨by decide, by decide, SearchProduct_filters parseTen pricedStore "10" (.fin 10) (by decide)⟩

/-- C8: if the code values of the store are pairwise distinct, they are still pairwise
distinct after any sequence of requests to `GetAllProducts`, `GetProduct`, `SearchProduct`
and `CreateProduct`. -/
theorem serve_codeValues_distinct (parseFloat32 : String → Option F64)
    (productsList : List Product) (reqs : List Request)
    (h : (productsList.map Product.CodeValue).Nodup) :
    ((serve parseFloat32 productsList reqs).map Product.CodeValue).Nodup := by
  refine serve_invariant parseFloat32 (fun l => (l.map Product.CodeValue).Nodup) ?_ reqs
    productsList h
  intro l body hl _ hu
  have hnot : ¬ ∃ p ∈ l, p.CodeValue = body.CodeValue := by
    intro hex
    rw [(codeValueUsed_iff _ _).2 hex] at hu
    exact absurd hu (by simp)
  rw [List.map_append, List.nodup_append]
  refine ⟨hl, by simp, ?_⟩
  intro a ha hb
  simp only [List.map_cons, List.map_nil, List.mem_singleton, newProduct] at hb
  obtain ⟨p, hp, e⟩ := List.mem_map.1 ha
  exact hnot ⟨p, hp, e.trans hb⟩

/-- Witness of C8: two creations with the same code value, around reads, keep the code
values of the store distinct. -/
theorem serve_codeValues_distinct_witness :
    (([sampleProduct] : List Product).map Product.CodeValue).Nodup ∧
    ((serve parseTen [sampleProduct]
      [.create sampleBody true, .getAll, .create sampleBody true, .get "1", .search "10",
        .create sampleBodyUsed true]).map Product.CodeValue).Nodup :=
  ⟨by decide, serve_codeValues_distinct parseTen [sampleProduct] _ (by decide)⟩

/-- C9: a product that `CreateProduct` appends has a well-formed expiration (it matches the
date pattern and splits on `/` into a day in [1,31], a month in [1,12] and a non-negative
year); hence, if every product of the store has a well-formed expiration, so has every
product of the store after any sequence of requests. -/
theorem serve_dates_wellFormed (parseFloat32 : String → Option F64)
    (productsList : List Product) :
    (∀ (body : BodyRequestCreate) (err : Bool),
      (CreateProduct productsList body err).productsList ≠ productsList →
      ∃ prod : Product,
        (CreateProduct productsList body err).productsList = productsList ++ [prod] ∧
        wellFormedDate prod.Expiration = true) ∧
    ((∀ p ∈ productsList, wellFormedDate p.Expiration = true) →
      ∀ reqs : List Request, ∀ p ∈ serve parseFloat32 productsList reqs,
        wellFormedDate p.Expiration = true) := by
  constructor
  · intro body err h
    rcases CreateProduct_cases productsList body err with
      ⟨he, hr⟩ | ⟨he, hv, hr⟩ | ⟨he, hv, hu, hr⟩ | ⟨he, hv, hu, hr⟩
    · exact absurd (by rw [hr]) h
    · exact absurd (by rw [hr]) h
    · exact absurd (by rw [hr]) h
    · exact ⟨newProduct productsList body, by rw [hr], validateDate_wellFormed _ hv⟩
  · intro h reqs
    refine serve_invariant parseFloat32
      (fun l => ∀ p ∈ l, wellFormedDate p.Expiration = true) ?_ reqs productsList h
    intro l body hl hv _ p hp
    rcases List.mem_append.1 hp with hm | hm
    · exact hl p hm
    · rw [List.mem_singleton.1 hm]
      exact validateDate_wellFormed _ hv

/-- Witness of C9: the product appended for `sampleBody` has a well-formed expiration, and
so have all products after a sequence of requests on the store holding `sampleProduct`. -/
theorem serve_dates_wellFormed_witness :
    (CreateProduct [sampleProduct] sampleBody true).productsList ≠ [sampleProduct] ∧
    (∃ prod : Product,
      (CreateProduct [sampleProduct] sampleBody true).productsList = [sampleProduct] ++ [prod] ∧
      wellFormedDate prod.Expiration = true) ∧
    (∀ p ∈ [sampleProduct], wellFormedDate p.Expiration = true) ∧
    (∀ p ∈ serve parseTen [sampleProduct] [.create sampleBody true, .create sampleBodyUsed true],
      wellFormedDate p.Expiration = true) :=
  ⟨by decide,
    (serve_dates_wellFormed parseTen [sampleProduct]).1 sampleBody true (by decide),
    by decide,
    (serve_dates_wellFormed parseTen [sampleProduct]).2 (by decide) _⟩

/-- C10 (counterexample): the store holding only `sampleProductTwo`, whose id is 2, has
pairwise distinct ids; `CreateProduct` appends a product to it, and the new store has two
products with id 2. -/
theorem CreateProduct_duplicates_id :
    (([sampleProductTwo] : List Product).map Product.Id).Nodup ∧
    (CreateProduct [sampleProductTwo] sampleBody true).productsList =
      [sampleProductTwo, ⟨2, "desk", 4, "B2", false, "31/12/2025", .fin 99⟩] ∧
    ¬ ((CreateProduct [sampleProductTwo] sampleBody true).productsList.map Product.Id).Nodup := by
  decide

/-- C10 (amended): for a store with pairwise distinct ids and a create request on which
`CreateProduct` appends a product, the ids of the new store are pairwise distinct exactly
when no product of the old store has the id `len(store) + 1`; in particular they are
distinct whenever that id is not in use. -/
theorem CreateProduct_ids_distinct_iff (productsList : List Product)
    (body : BodyRequestCreate) (err : Bool)
    (hd : (productsList.map Product.Id).Nodup)
    (ha : (CreateProduct productsList body err).productsList ≠ productsList) :
    (((CreateProduct productsList body err).productsList.map Product.Id).Nodup ↔
      ∀ p ∈ productsList, p.Id ≠ (productsList.length : Int) + 1) := by
  rcases CreateProduct_cases productsList body err with
    ⟨he, hr⟩ | ⟨he, hv, hr⟩ | ⟨he, hv, hu, hr⟩ | ⟨he, hv, hu, hr⟩
  · exact absurd (by rw [hr]) ha
  · exact absurd (by rw [hr]) ha
  · exact absurd (by rw [hr]) ha
  · rw [hr]
    simp only [List.map_append, List.map_cons, List.map_nil, newProduct]
    rw [List.nodup_append]
    constructor
    · rintro ⟨_, _, hdis⟩ p hp e
      exact hdis (List.mem_map.2 ⟨p, hp, e⟩) (List.mem_singleton.2 rfl)
    · intro hno
      refine ⟨hd, by simp, ?_⟩
      intro a h1 h2
      obtain ⟨p, hp, e⟩ := List.mem_map.1 h1
      exact hno p hp (e.trans (List.mem_singleton.1 h2))

/-- Witness of C10 (amended): on the store holding `sampleProduct` (id 1) the id 2 is free
and the ids stay distinct after the creation. -/
theorem CreateProduct_ids_distinct_iff_witness :
    (([sampleProduct] : List Product).map Product.Id).Nodup ∧
    (CreateProduct [sampleProduct] sampleBody true).productsList ≠ [sampleProduct] ∧
    (∀ p ∈ [sampleProduct], p.Id ≠ (([sampleProduct] : List Product).length : Int) + 1) ∧
    ((CreateProduct [sampleProduct] sampleBody true).productsList.map Product.Id).Nodup :=
  ⟨by decide, by decide, by decide,
    (CreateProduct_ids_distinct_iff [sampleProduct] sampleBody true (by decide) (by decide)).2
      (by decide)⟩

/-- C11: the store is mutated only by append. `GetAllProducts` writes the single response
200 with the whole store, in order, and leaves it as it was; `GetProduct` and
`SearchProduct` leave it as it was; `CreateProduct` leaves it as it was or as the old store
followed by exactly one new product; hence after any sequence of requests the old store is
the beginning of the new one (no product modified, removed or reordered). -/
theorem store_append_only (parseFloat32 : String → Option F64) (productsList : List Product) :
    GetAllProducts productsList =
      ⟨productsList, [⟨200, .products productsList⟩], false⟩ ∧
    (∀ idParam : String, (GetProduct productsList idParam).productsList = productsList) ∧
    (∀ query : String,
      (SearchProduct parseFloat32 productsList query).productsList = productsList) ∧
    (∀ (body : BodyRequestCreate) (err : Bool),
      (CreateProduct productsList body err).productsList = productsList ∨
      ∃ prod : Product,
        (CreateProduct productsList body err).productsList = productsList ++ [prod]) ∧
    (∀ reqs : List Request, productsList <+: serve parseFloat32 productsList reqs) := by
  refine ⟨rfl, ?_, ?_, ?_, fun reqs => serve_prefix parseFloat32 reqs productsList⟩
  · intro idParam
    simp only [GetProduct]; cases Atoi idParam <;> rfl
  · intro query
    simp only [SearchProduct]; cases parseFloat32 query <;> rfl
  · intro body err
    rcases CreateProduct_cases productsList body err with
      ⟨_, hr⟩ | ⟨_, _, hr⟩ | ⟨_, _, _, hr⟩ | ⟨_, _, _, hr⟩
    · left; rw [hr]
    · left; rw [hr]
    · left; rw [hr]
    · right; exact ⟨newProduct productsList body, by rw [hr]⟩

/-- C12: `validateDate(s, datePattern)` is true exactly for the strings of the date grammar
of the specification (ten characters `DD/MM/YYYY`, `/` at positions 2 and 5, DD from 01 to
31, MM from 01 to 12, YYYY four digits); a wrong separator, a wrong digit count, the days
00 and 32, the months 00 and 13, and extra characters in front or behind, a trailing
newline included, are rejected. -/
theorem validateDate_eq_specDate :
    (∀ s : String, validateDate s datePattern = specDate s) ∧
    validateDate "31/12/2025" datePattern = true ∧
    validateDate "31-12-2025" datePattern = false ∧
    validateDate "1/12/2025" datePattern = false ∧
    validateDate "31/12/25" datePattern = false ∧
    validateDate "31/12/20255" datePattern = false ∧
    validateDate "00/12/2025" datePattern = false ∧
    validateDate "32/12/2025" datePattern = false ∧
    validateDate "31/00/2025" datePattern = false ∧
    validateDate "31/13/2025" datePattern = false ∧
    validateDate " 31/12/2025" datePattern = false ∧
    validateDate "31/12/2025 " datePattern = false ∧
    validateDate "31/12/2025\n" datePattern = false := by
  refine ⟨?_, by decide, by decide, by decide, by decide, by decide, by decide, by decide,
    by decide, by decide, by decide, by decide, by decide⟩
  intro s
  rw [Bool.eq_iff_iff, validateDate_iff, specDate_iff]

/-- C13: `CreateProduct` changes the store exactly when it writes a response with status
201; such a response is 201 "product created" and its data is the product appended to the
store; whenever the first response written has status 400 the store is unchanged. -/
theorem CreateProduct_atomic (productsList : List Product) (body : BodyRequestCreate)
    (err : Bool) :
    ((CreateProduct productsList body err).productsList ≠ productsList ↔
      ∃ r ∈ (CreateProduct productsList body err).written, r.status = 201) ∧
    (∀ r ∈ (CreateProduct productsList body err).written, r.status = 201 →
      ∃ prod : Product, r = ⟨201, .messageData "product created" prod⟩ ∧
        (CreateProduct productsList body err).productsList = productsList ++ [prod]) ∧
    (∀ r : Response, (CreateProduct productsList body err).written.head? = some r →
      r.status = 400 → (CreateProduct productsList body err).productsList = productsList) := by
  rcases CreateProduct_cases productsList body err with
    ⟨_, hr⟩ | ⟨_, _, hr⟩ | ⟨_, _, _, hr⟩ | ⟨_, _, _, hr⟩
  · rw [hr]; simp [badRequest]
  · rw [hr]; simp [badRequest]
  · rw [hr]; simp [badRequest]
  · rw [hr]
    refine ⟨?_, ?_, ?_⟩
    · simp [badRequest]
    · intro r hr1 hs
      refine ⟨newProduct productsList body, ?_, rfl⟩
      simp only [List.mem_cons, List.mem_singleton, List.not_mem_nil, or_false] at hr1
      rcases hr1 with rfl | rfl
      · rfl
      · simp [badRequest] at hs
    · intro r hh hs
      simp only [List.head?_cons, Option.some.injEq] at hh
      subst hh
      simp at hs

/-- Witness of C13: `sampleBody` is inserted and its 201 response carries the appended
product; `sampleBodyUsed` is answered 400 first and the store is unchanged. -/
theorem CreateProduct_atomic_witness :
    (CreateProduct [sampleProduct] sampleBody true).productsList ≠ [sampleProduct] ∧
    (∃ r ∈ (CreateProduct [sampleProduct] sampleBody true).written, r.status = 201) ∧
    (CreateProduct [sampleProduct] sampleBodyUsed true).written.head? =
      some ⟨400, .message "code value is used"⟩ ∧
    (CreateProduct [sampleProduct] sampleBodyUsed true).productsList = [sampleProduct] :=
  ⟨by decide,
    (CreateProduct_atomic [sampleProduct] sampleBody true).1.1 (by decide),
    by decide,
    (CreateProduct_atomic [sampleProduct] sampleBodyUsed true).2.2
      ⟨400, .message "code value is used"⟩ (by decide) rfl⟩

/-- C14: inside the validation block (binding returned an error) the date grammar is
decided before code uniqueness: an expiration that does not match the date pattern is
answered 400 "invalid expiration date", also when the code value is in use; otherwise a
code value in use is answered 400 "code value is used"; otherwise the product is appended
and the response 201 "product created" is written for it, as the first response. -/
theorem CreateProduct_check_order (productsList : List Product) (body : BodyRequestCreate) :
    (validateDate body.Expiration datePattern = false →
      CreateProduct productsList body true =
        ⟨productsList, [⟨400, .message "invalid expiration date"⟩], false⟩) ∧
    (validateDate body.Expiration datePattern = true →
      (∃ p ∈ productsList, p.CodeValue = body.CodeValue) →
      CreateProduct productsList body true =
        ⟨productsList, [⟨400, .message "code value is used"⟩], false⟩) ∧
    (validateDate body.Expiration datePattern = true →
      (¬ ∃ p ∈ productsList, p.CodeValue = body.CodeValue) →
      (CreateProduct productsList body true).productsList =
        productsList ++ [newProduct productsList body] ∧
      (CreateProduct productsList body true).written.head? =
        some ⟨201, .messageData "product created" (newProduct productsList body)⟩) := by
  rcases CreateProduct_cases productsList body true with
    ⟨he, _⟩ | ⟨_, hv, hr⟩ | ⟨_, hv, hu, hr⟩ | ⟨_, hv, hu, hr⟩
  · exact absurd he (by simp)
  · rw [hr]; simp [hv, badRequest]
  · rw [hr]
    have hex := (codeValueUsed_iff _ _).1 hu
    refine ⟨fun h => ?_, fun _ _ => ?_, fun _ hno => absurd hex hno⟩
    · rw [hv] at h; exact absurd h (by simp)
    · simp [badRequest]
  · rw [hr]
    refine ⟨fun h => ?_, fun _ hex => ?_, fun _ _ => ⟨rfl, rfl⟩⟩
    · rw [hv] at h; exact absurd h (by simp)
    · rw [(codeValueUsed_iff _ _).2 hex] at hu; exact absurd hu (by simp)

/-- Witness of C14: a bad date with a used code value is answered "invalid expiration
date"; a good date with a used code value "code value is used"; a good date with a fresh
code value is inserted. -/
theorem CreateProduct_check_order_witness :
    (validateDate sampleBodyBadDate.Expiration datePattern = false ∧
      (∃ p ∈ [sampleProduct], p.CodeValue = sampleBodyBadDate.CodeValue) ∧
      CreateProduct [sampleProduct] sampleBodyBadDate true =
        ⟨[sampleProduct], [⟨400, .message "invalid expiration date"⟩], false⟩) ∧
    CreateProduct [sampleProduct] sampleBodyUsed true =
      ⟨[sampleProduct], [⟨400, .message "code value is used"⟩], false⟩ ∧
    (CreateProduct [sampleProduct] sampleBody true).productsList =
      [sampleProduct] ++ [newProduct [sampleProduct] sampleBody] :=
  ⟨⟨by decide, ⟨sampleProduct, by decide, by decide⟩,
      (CreateProduct_check_order [sampleProduct] sampleBodyBadDate).1 (by decide)⟩,
    (CreateProduct_check_order [sampleProduct] sampleBodyUsed).2.1 (by decide)
      ⟨sampleProduct, by decide, by decide⟩,
    ((CreateProduct_check_order [sampleProduct] sampleBody).2.2 (by decide) (by decide)).1⟩

/-- C15 (the code at the failing input): the query `16777217` denotes 16777217, but
`strconv.ParseFloat(query, 32)` rounds it to the `float32` 16777216, so `SearchProduct`
returns the product whose price equals the given value; and the decimal numeral of
`10^39`, beyond the `float32` range, is answered 400 "Invalid price". -/
theorem SearchProduct_float32_threshold (other : String → Option F64) :
    plainDecimal "16777217" = some 16777217 ∧
    ParseFloat32 other "16777217" = some (.fin 16777216) ∧
    SearchProduct (ParseFloat32 other) [priced 1 16777217] "16777217" =
      ⟨[priced 1 16777217], [⟨200, .products [priced 1 16777217]⟩], false⟩ ∧
    plainDecimal "1000000000000000000000000000000000000000" = some (10 ^ 39) ∧
    SearchProduct (ParseFloat32 other) [priced 1 16777217]
        "1000000000000000000000000000000000000000" =
      ⟨[priced 1 16777217], [⟨400, .error "Invalid price"⟩], false⟩ := by
  have h1 : plainDecimal "16777217" = some 16777217 := by decide!
  have h2 : toFloat32 16777217 = some (.fin 16777216) := by decide!
  have h3 : plainDecimal "1000000000000000000000000000000000000000" = some (10 ^ 39) := by
    decide!
  have h4 : toFloat32 (10 ^ 39) = none := by decide!
  have h5 : (priced 1 16777217).Price.gt (.fin 16777216) = true := by decide!
  have p1 : ParseFloat32 other "16777217" = some (.fin 16777216) := by
    simp only [ParseFloat32, h1, h2]
  have p2 : ParseFloat32 other "1000000000000000000000000000000000000000" = none := by
    simp only [ParseFloat32, h3, h4]
  refine ⟨h1, p1, ?_, h3, ?_⟩
  · simp only [SearchProduct, p1, searchLoop, h5, if_true, List.nil_append]
  · simp only [SearchProduct, p2]

/-- C16: a string accepted by `validateDate` splits on `/` into exactly three pieces (so
`date[0]`, `date[1]`, `date[2]` are in range), each of which `strconv.Atoi` parses without
error, with the day in [1,31], the month in [1,12] and the year in [0,9999]; so the date
block of `CreateProduct` either falls through or answers "invalid expiration date", and
`CreateProduct` never panics and never writes "invalid day", "invalid month" or "invalid
year"; a day `00` or a month `00` is rejected by the pattern. -/
theorem date_branches_unreachable :
    (∀ s : String, validateDate s datePattern = true →
      ∃ dd mm yyyy : String, ∃ day month year : Int,
        Split s '/' = [dd, mm, yyyy] ∧ Atoi dd = some day ∧ Atoi mm = some month ∧
        Atoi yyyy = some year ∧ 1 ≤ day ∧ day ≤ 31 ∧ 1 ≤ month ∧ month ≤ 12 ∧
        0 ≤ year ∧ year ≤ 9999) ∧
    (∀ s : String, dateBlock s = none ∨
      dateBlock s = some (.respond ⟨400, .message "invalid expiration date"⟩)) ∧
    (∀ (productsList : List Product) (body : BodyRequestCreate) (err : Bool),
      (CreateProduct productsList body err).panicked = false ∧
      ∀ r ∈ (CreateProduct productsList body err).written,
        r ≠ ⟨400, .message "invalid day"⟩ ∧ r ≠ ⟨400, .message "invalid month"⟩ ∧
        r ≠ ⟨400, .message "invalid year"⟩) ∧
    validateDate "00/01/2024" datePattern = false ∧
    validateDate "01/00/2024" datePattern = false := by
  refine ⟨validateDate_components, ?_, ?_, by decide, by decide⟩
  · intro s
    cases hv : validateDate s datePattern with
    | true => left; exact dateBlock_of_valid s hv
    | false => right; exact dateBlock_of_invalid s hv
  · intro productsList body err
    rcases CreateProduct_cases productsList body err with
      ⟨_, hr⟩ | ⟨_, _, hr⟩ | ⟨_, _, _, hr⟩ | ⟨_, _, _, hr⟩ <;>
      rw [hr] <;> simp [badRequest]

/-- Witness of C16: the date `31/12/2025` gives the pieces 31, 12 and 2025. -/
theorem date_branches_unreachable_witness :
    validateDate "31/12/2025" datePattern = true ∧
    Split "31/12/2025" '/' = ["31", "12", "2025"] ∧
    Atoi "31" = some 31 ∧ Atoi "12" = some 12 ∧ Atoi "2025" = some 2025 ∧
    (∃ dd mm yyyy : String, ∃ day month year : Int,
      Split "31/12/2025" '/' = [dd, mm, yyyy] ∧ Atoi dd = some day ∧ Atoi mm = some month ∧
      Atoi yyyy = some year ∧ 1 ≤ day ∧ day ≤ 31 ∧ 1 ≤ month ∧ month ≤ 12 ∧
      0 ≤ year ∧ year ≤ 9999) :=
  ⟨by decide, by decide, by decide, by decide, by decide,
    date_branches_unreachable.1 "31/12/2025" (by decide)⟩

/-- C17: if the store is numbered sequentially (the product at position `i` has id `i`),
then after any sequence of requests the store is still numbered sequentially, its ids are
pairwise distinct, and a further `CreateProduct` that appends a product gives it an id that
no product of the store has. -/
theorem serve_sequentialIds (parseFloat32 : String → Option F64)
    (productsList : List Product) (reqs : List Request) (h : sequentialIds productsList) :
    sequentialIds (serve parseFloat32 productsList reqs) ∧
    ((serve parseFloat32 productsList reqs).map Product.Id).Nodup ∧
    ∀ (body : BodyRequestCreate) (err : Bool),
      (CreateProduct (serve parseFloat32 productsList reqs) body err).productsList ≠
        serve parseFloat32 productsList reqs →
      ∃ prod : Product,
        (CreateProduct (serve parseFloat32 productsList reqs) body err).productsList =
          serve parseFloat32 productsList reqs ++ [prod] ∧
        ∀ p ∈ serve parseFloat32 productsList reqs, p.Id ≠ prod.Id := by
  have hs : sequentialIds (serve parseFloat32 productsList reqs) :=
    serve_invariant parseFloat32 sequentialIds
      (fun l body hl _ _ => sequentialIds_append l body hl) reqs productsList h
  refine ⟨hs, sequentialIds_nodup _ hs, ?_⟩
  intro body err hne
  rcases CreateProduct_cases (serve parseFloat32 productsList reqs) body err with
    ⟨_, hr⟩ | ⟨_, _, hr⟩ | ⟨_, _, _, hr⟩ | ⟨_, _, _, hr⟩
  · exact absurd (by rw [hr]) hne
  · exact absurd (by rw [hr]) hne
  · exact absurd (by rw [hr]) hne
  · exact ⟨newProduct _ body, by rw [hr], sequentialIds_fresh _ hs⟩

/-- Witness of C17: starting from the store holding `sampleProduct` (id 1), two creations
keep the numbering 1, 2, 3. -/
theorem serve_sequentialIds_witness :
    sequentialIds [sampleProduct] ∧
    (serve parseTen [sampleProduct]
      [.create sampleBody true, .getAll, .create sampleBodyUsed true,
        .create (⟨9, "chair", 2, "D4", true, "05/05/2031", .fin 45⟩) true]).map Product.Id =
      [1, 2, 3] ∧
    sequentialIds (serve parseTen [sampleProduct]
      [.create sampleBody true, .getAll, .create sampleBodyUsed true,
        .create (⟨9, "chair", 2, "D4", true, "05/05/2031", .fin 45⟩) true]) :=
  ⟨by decide, by decide, (serve_sequentialIds parseTen [sampleProduct] _ (by decide)).1⟩

end GoWeb
